import Mathlib

/-!
Verification of the field-level permission engine in
src/ralph/lib/permissions/models.py.

The Python module is embedded shallowly:

* `Field` models a Django model field as seen by the metaclass: its `name`,
  its `verbose_name` (the human-readable label used in permission
  descriptions) and its `primary_key` flag.
* `ModelClass` models the state of a model class that the code reads and
  writes: `_meta.model_name`, `_meta.app_label`, `_meta.fields`,
  `Permissions.blacklist` (an `Option`, `none` meaning the attribute is
  absent so that accessing it raises `AttributeError`), and
  `_meta.permissions`, the per-type permission registry the metaclass
  appends to.
* `get_perm_key` is the permission code-name builder (models.py line 15).
* `permLoop` / `registerFieldPermissions` model the field loop of
  `PermissionByFieldBase.__new__` (models.py lines 58 to 69): Python's
  `ugettext_lazy` wrapper is treated as the identity on strings, and the
  Python `AttributeError` raised by `new_class.Permissions.blacklist` when
  the attribute is missing is modelled by `Except.error`.  Note the
  attribute is read inside the loop body, so a model with no fields never
  touches it.
* `has_access_to_field` models `PermByFieldMixin.has_access_to_field`
  (models.py lines 78 to 105): the user is an opaque predicate on
  qualified permission names.
* `allowedLoop` / `allowed_fields` model `PermByFieldMixin.allowed_fields`
  (models.py lines 107 to 135); there `self.Permissions.blacklist` is read
  before the loop, hence unconditionally.
* `specRegisterSequence` is NOT taken from the source: it is the ordered
  output sequence described by the specification of
  `register_field_permissions` (filter out primary-key and excluded
  fields, then emit the change pair followed by the view pair), used as
  the reference side of the refinement claims.
-/

namespace Ralph

structure Field where
  name : String
  verbose_name : String
  primary_key : Bool
deriving DecidableEq

structure ModelClass where
  model_name : String
  app_label : String
  fields : List Field
  blacklist? : Option (List String)
  permissions : List (String × String)
deriving DecidableEq

inductive PyError where
  | attributeError : String → PyError
deriving DecidableEq

deriving instance DecidableEq for Except

/-- Embeds `get_perm_key` (models.py line 15): the permission code name
built from action, class name and field name. -/
def get_perm_key (action class_name field_name : String) : String :=
  action ++ "_" ++ class_name ++ "_" ++ field_name ++ "_field"

/-- Embeds the `for field in new_class._meta.fields` loop of
`PermissionByFieldBase.__new__` (models.py lines 58 to 69).  Each
iteration first reads `new_class.Permissions.blacklist` (raising
`AttributeError` when absent, modelled as `Except.error`), then, when the
field is not a primary key and its name is not blacklisted, appends the
change pair and then the view pair to the accumulated permission list. -/
def permLoop (class_name : String) (blacklist? : Option (List String)) :
    List Field → List (String × String) → Except PyError (List (String × String))
  | [], perms => Except.ok perms
  | f :: fs, perms =>
      match blacklist? with
      | none => Except.error (PyError.attributeError "Permissions")
      | some blacklist =>
          if !f.primary_key && !(blacklist.contains f.name) then
            permLoop class_name blacklist? fs
              (perms ++ [(get_perm_key "change" class_name f.name,
                          "Can change " ++ f.verbose_name ++ " field"),
                         (get_perm_key "view" class_name f.name,
                          "Can view " ++ f.verbose_name ++ " field")])
          else
            permLoop class_name blacklist? fs perms

/-- Embeds `PermissionByFieldBase.__new__` as a state transformer on the
model class: it runs `permLoop` starting from the existing
`_meta.permissions` list and stores the result back. -/
def registerFieldPermissions (m : ModelClass) : Except PyError ModelClass :=
  (permLoop m.model_name m.blacklist? m.fields m.permissions).map
    (fun ps => { m with permissions := ps })

structure User where
  has_perm : String → Bool

/-- Embeds `PermByFieldMixin.has_access_to_field` (models.py lines 78 to
105): builds the permission key, qualifies it with the app label, and
delegates to `user.has_perm`. -/
def has_access_to_field (m : ModelClass) (field_name : String) (user : User)
    (action : String) : Bool :=
  user.has_perm (m.app_label ++ "." ++ get_perm_key action m.model_name field_name)

/-- Embeds the result-building loop of `PermByFieldMixin.allowed_fields`
(models.py lines 127 to 133). -/
def allowedLoop (m : ModelClass) (user : User) (action : String)
    (blacklist : List String) : List Field → List String
  | [] => []
  | f :: fs =>
      if !f.primary_key && !(blacklist.contains f.name)
          && has_access_to_field m f.name user action then
        f.name :: allowedLoop m user action blacklist fs
      else
        allowedLoop m user action blacklist fs

/-- Embeds `PermByFieldMixin.allowed_fields` (models.py lines 107 to 135):
`self.Permissions.blacklist` is read before the loop (line 126), so a
missing attribute raises even when the model has no fields. -/
def allowed_fields (m : ModelClass) (user : User) (action : String) :
    Except PyError (List String) :=
  match m.blacklist? with
  | none => Except.error (PyError.attributeError "Permissions")
  | some blacklist => Except.ok (allowedLoop m user action blacklist m.fields)

/-- Modelled from the spec of `register_field_permissions`: the two
entries emitted for one eligible field, change pair first, view pair
second. -/
def specFieldPairs (type_name : String) (f : Field) : List (String × String) :=
  [(get_perm_key "change" type_name f.name,
    "Can change " ++ f.verbose_name ++ " field"),
   (get_perm_key "view" type_name f.name,
    "Can view " ++ f.verbose_name ++ " field")]

/-- Modelled from the spec of `register_field_permissions`: the full
ordered output sequence, in field declaration order, skipping primary-key
fields and fields whose name is in the exclusion set. -/
def specRegisterSequence (type_name : String) (exclusion : List String)
    (fields : List Field) : List (String × String) :=
  (fields.filter (fun f => !f.primary_key && !(exclusion.contains f.name))).flatMap
    (specFieldPairs type_name)

/-- Whether a string contains no uppercase character. -/
def noUpper (s : String) : Bool := s.data.all (fun c => !c.isUpper)

-- Concrete models and actors used by the concrete-scenario claims.

def idField : Field := { name := "id", verbose_name := "ID", primary_key := true }

def titleField : Field :=
  { name := "title", verbose_name := "title", primary_key := false }

def remarksField : Field :=
  { name := "remarks", verbose_name := "remarks", primary_key := false }

def documentModel : ModelClass :=
  { model_name := "document", app_label := "app", fields := [idField, titleField],
    blacklist? := some [], permissions := [] }

def docExclModel : ModelClass :=
  { model_name := "document", app_label := "app",
    fields := [idField, titleField, remarksField],
    blacklist? := some ["remarks"], permissions := [] }

def orphanModel : ModelClass :=
  { model_name := "orphan", app_label := "app", fields := [],
    blacklist? := none, permissions := [] }

def titleOnlyNoBlacklist : ModelClass :=
  { model_name := "thing", app_label := "app", fields := [titleField],
    blacklist? := none, permissions := [] }

def emptyDocModel : ModelClass :=
  { model_name := "document", app_label := "app", fields := [],
    blacklist? := none, permissions := [] }

def titleChangeActor : User :=
  { has_perm := fun s => s == "app.change_document_title_field" }

def idChangeActor : User :=
  { has_perm := fun s => s == "app.change_document_id_field" }

def remarksChangeActor : User :=
  { has_perm := fun s => s == "app.change_document_remarks_field" }

-- Shared lemmas about the embedding.

theorem permLoop_some (class_name : String) (bl : List String) (fields : List Field)
    (perms : List (String × String)) :
    permLoop class_name (some bl) fields perms =
      Except.ok (perms ++ specRegisterSequence class_name bl fields) := by
  induction fields generalizing perms with
  | nil => simp [permLoop, specRegisterSequence]
  | cons f fs ih =>
      simp only [permLoop, specRegisterSequence, List.filter_cons]
      by_cases hc : (!f.primary_key && !(bl.contains f.name)) = true
      · rw [if_pos hc, if_pos hc, ih]
        simp [specRegisterSequence, specFieldPairs, List.flatMap_cons, List.append_assoc]
      · rw [if_neg hc, if_neg hc, ih]
        simp [specRegisterSequence]

theorem registerFieldPermissions_some (m : ModelClass) (bl : List String)
    (hbl : m.blacklist? = some bl) :
    registerFieldPermissions m =
      Except.ok { m with permissions :=
        m.permissions ++ specRegisterSequence m.model_name bl m.fields } := by
  simp [registerFieldPermissions, hbl, permLoop_some, Except.map]

theorem allowedLoop_eq (m : ModelClass) (user : User) (action : String)
    (bl : List String) (fields : List Field) :
    allowedLoop m user action bl fields =
      (fields.filter (fun f => !f.primary_key && !(bl.contains f.name)
        && has_access_to_field m f.name user action)).map Field.name := by
  induction fields with
  | nil => simp [allowedLoop]
  | cons f fs ih =>
      simp only [allowedLoop, List.filter_cons]
      by_cases hc : (!f.primary_key && !(bl.contains f.name)
          && has_access_to_field m f.name user action) = true
      · rw [if_pos hc, if_pos hc, ih]; simp
      · rw [if_neg hc, if_neg hc, ih]

theorem get_perm_key_name_inj (a c n m : String)
    (h : get_perm_key a c n = get_perm_key a c m) : n = m := by
  have hd := congrArg String.data h
  simp only [get_perm_key, String.data_append, List.append_assoc] at hd
  have h1 := List.append_cancel_left hd
  have h2 := List.append_cancel_left h1
  have h3 := List.append_cancel_left h2
  have h4 := List.append_cancel_left h3
  exact String.ext (List.append_cancel_right h4)

theorem get_perm_key_change_ne_view (c n m : String) :
    get_perm_key "change" c n ≠ get_perm_key "view" c m := by
  intro h
  have hd := congrArg String.data h
  have hc : ("change" : String).data = ['c','h','a','n','g','e'] := rfl
  have hv : ("view" : String).data = ['v','i','e','w'] := rfl
  simp only [get_perm_key, String.data_append, List.append_assoc, hc, hv,
    List.cons_append, List.nil_append] at hd
  simp at hd

theorem noUpper_append (s t : String) : noUpper (s ++ t) = (noUpper s && noUpper t) := by
  simp [noUpper, String.data_append, List.all_append]

theorem spec_key_origin (type_name : String) (bl : List String) (fields : List Field)
    (k : String) (hk : k ∈ (specRegisterSequence type_name bl fields).map Prod.fst) :
    ∃ f ∈ fields, f.primary_key = false ∧ f.name ∉ bl ∧
      (k = get_perm_key "change" type_name f.name ∨
        k = get_perm_key "view" type_name f.name) := by
  simp only [specRegisterSequence, specFieldPairs, List.map_flatMap] at hk
  rw [List.mem_flatMap] at hk
  obtain ⟨f, hf, hkf⟩ := hk
  rw [List.mem_filter] at hf
  obtain ⟨hmem, hcond⟩ := hf
  simp at hcond
  simp only [List.map_cons, List.map_nil, List.mem_cons, List.mem_singleton] at hkf
  exact ⟨f, hmem, hcond.1, hcond.2, by simpa using hkf⟩

-- Claim theorems.

/-- Claim C1: for every record type descriptor whose exclusion set is
configured, the metaclass registration processes fields in declaration
order, skips every primary-key or excluded field, and appends, for each
remaining field, exactly the change pair followed by the view pair — that
is, it appends precisely the sequence `specRegisterSequence`, which is the
sequence described by the specification. -/
theorem C1_register_emits_spec_sequence (m : ModelClass) (bl : List String)
    (hbl : m.blacklist? = some bl) :
    registerFieldPermissions m =
      Except.ok { m with permissions :=
        m.permissions ++ specRegisterSequence m.model_name bl m.fields } := by
  simp [registerFieldPermissions, hbl, permLoop_some, Except.map]

/-- Witness for C1 at the concrete document model. -/
theorem C1_witness :
    registerFieldPermissions documentModel =
      Except.ok { documentModel with permissions :=
        (documentModel.permissions ++
          specRegisterSequence documentModel.model_name [] documentModel.fields) } :=
  C1_register_emits_spec_sequence documentModel [] rfl

/-- Counterexample for C2: `get_perm_key` applies no transformation at
all, so for an uppercase action the result is not all lowercase — the
universally quantified "the result is all lowercase" part of the claim is
false. -/
theorem C2_counterexample :
    get_perm_key "CHANGE" "document" "title" = "CHANGE_document_title_field" ∧
    noUpper (get_perm_key "CHANGE" "document" "title") = false := by
  constructor
  · decide
  · decide

/-- Claim C2 (amended): `get_perm_key` returns exactly the three parts
joined by single underscores with the literal suffix, with no other
transformation; consequently the result is all lowercase whenever all
three inputs are all lowercase (the function itself performs no
lowercasing). -/
theorem C2_amended_format (action type_name field_name : String) :
    get_perm_key action type_name field_name =
      action ++ "_" ++ type_name ++ "_" ++ field_name ++ "_field" ∧
    (noUpper action = true → noUpper type_name = true → noUpper field_name = true →
      noUpper (get_perm_key action type_name field_name) = true) := by
  refine ⟨rfl, fun ha hc hf => ?_⟩
  simp [get_perm_key, noUpper_append, ha, hc, hf]
  constructor <;> decide

/-- Witness for C2 at concrete lowercase inputs. -/
theorem C2_witness :
    noUpper (get_perm_key "change" "document" "title") = true :=
  (C2_amended_format "change" "document" "title").2 (by decide) (by decide) (by decide)

/-- Claim C3: `allowed_fields` returns exactly the names of the fields
that are not primary keys, not excluded, and granted by
`has_access_to_field`, in field declaration order (a sublist of the
declared name sequence) and without duplicates when the field names are
distinct. -/
theorem C3_allowed_fields_filter (m : ModelClass) (bl : List String) (user : User)
    (action : String) (hbl : m.blacklist? = some bl)
    (hnd : (m.fields.map Field.name).Nodup) :
    allowed_fields m user action =
      Except.ok ((m.fields.filter (fun f => !f.primary_key && !(bl.contains f.name)
        && has_access_to_field m f.name user action)).map Field.name) ∧
    ((m.fields.filter (fun f => !f.primary_key && !(bl.contains f.name)
        && has_access_to_field m f.name user action)).map Field.name).Nodup ∧
    List.Sublist ((m.fields.filter (fun f => !f.primary_key && !(bl.contains f.name)
        && has_access_to_field m f.name user action)).map Field.name)
      (m.fields.map Field.name) := by
  have hsub : List.Sublist
      ((m.fields.filter (fun f => !f.primary_key && !(bl.contains f.name)
        && has_access_to_field m f.name user action)).map Field.name)
      (m.fields.map Field.name) :=
    List.Sublist.map Field.name (List.filter_sublist m.fields)
  refine ⟨?_, List.Nodup.sublist hsub hnd, hsub⟩
  simp [allowed_fields, hbl, allowedLoop_eq]

/-- Witness for C3 at the concrete document model and actor. -/
theorem C3_witness :
    allowed_fields documentModel titleChangeActor "change" = Except.ok ["title"] :=
  ((C3_allowed_fields_filter documentModel [] titleChangeActor "change" rfl
      (by decide)).1).trans (by decide)

/-- Claim C4: `has_access_to_field` computes the permission key with
`get_perm_key`, qualifies it with the app label separated by a dot, and
returns the boolean answer of the actor's `has_perm` capability unchanged
(it is a total function, so it raises no error of its own). -/
theorem C4_has_access_delegates (m : ModelClass) (field_name : String) (user : User)
    (action : String) :
    has_access_to_field m field_name user action =
      user.has_perm (m.app_label ++ "." ++ get_perm_key action m.model_name field_name) :=
  rfl

/-- Claim C5: after registration starting from an empty registry, no
permission identifier built (for the change or view action) from an
excluded field name, and none built from the name of a primary-key field,
appears among the registered identifiers — assuming field names are
distinct within the type, which the schema guarantees. -/
theorem C5_exclusion_and_pk_honored (m : ModelClass) (bl : List String)
    (m' : ModelClass) (hbl : m.blacklist? = some bl)
    (hreg : registerFieldPermissions m = Except.ok m')
    (hnd : (m.fields.map Field.name).Nodup)
    (hpre : m.permissions = [])
    (act : String) (hact : act = "change" ∨ act = "view") :
    (∀ n ∈ bl, get_perm_key act m.model_name n ∉ m'.permissions.map Prod.fst) ∧
    (∀ f ∈ m.fields, f.primary_key = true →
      get_perm_key act m.model_name f.name ∉ m'.permissions.map Prod.fst) := by
  have hr := registerFieldPermissions_some m bl hbl
  rw [hreg] at hr
  have hm' := Except.ok.inj hr
  subst hm'
  simp only [hpre, List.nil_append]
  constructor
  · intro n hn hk
    obtain ⟨g, hgmem, hgpk, hgbl, hgk⟩ :=
      spec_key_origin m.model_name bl m.fields _ hk
    rcases hact with hact | hact <;> subst hact <;> rcases hgk with hgk | hgk
    · exact hgbl (get_perm_key_name_inj _ _ _ _ hgk ▸ hn)
    · exact get_perm_key_change_ne_view _ _ _ hgk
    · exact get_perm_key_change_ne_view _ _ _ hgk.symm
    · exact hgbl (get_perm_key_name_inj _ _ _ _ hgk ▸ hn)
  · intro f hfmem hfpk hk
    obtain ⟨g, hgmem, hgpk, hgbl, hgk⟩ :=
      spec_key_origin m.model_name bl m.fields _ hk
    rcases hact with hact | hact <;> subst hact <;> rcases hgk with hgk | hgk
    · have hfg : f = g :=
        List.inj_on_of_nodup_map hnd hfmem hgmem (get_perm_key_name_inj _ _ _ _ hgk)
      rw [hfg, hgpk] at hfpk
      exact Bool.false_ne_true hfpk
    · exact get_perm_key_change_ne_view _ _ _ hgk
    · exact get_perm_key_change_ne_view _ _ _ hgk.symm
    · have hfg : f = g :=
        List.inj_on_of_nodup_map hnd hfmem hgmem (get_perm_key_name_inj _ _ _ _ hgk)
      rw [hfg, hgpk] at hfpk
      exact Bool.false_ne_true hfpk

/-- Witness for C5 at the concrete document model with "remarks"
excluded. -/
theorem C5_witness :
    get_perm_key "change" docExclModel.model_name "remarks" ∉
      List.map Prod.fst ({ docExclModel with permissions :=
        (docExclModel.permissions ++
          specRegisterSequence docExclModel.model_name ["remarks"]
            docExclModel.fields) }).permissions :=
  (C5_exclusion_and_pk_honored docExclModel ["remarks"]
      { docExclModel with permissions :=
        (docExclModel.permissions ++
          specRegisterSequence docExclModel.model_name ["remarks"] docExclModel.fields) }
      rfl (registerFieldPermissions_some docExclModel ["remarks"] rfl)
      (by decide) rfl "change" (Or.inl rfl)).1 "remarks" (by decide)

/-- Counterexample for C6: on the concrete document model, running the
metaclass registration step twice does not leave the registry with the
same contents as running it once — the emitted pairs are duplicated. -/
theorem C6_counterexample :
    Except.bind (registerFieldPermissions documentModel) registerFieldPermissions ≠
      registerFieldPermissions documentModel := by
  decide

/-- Claim C6 (amended): running the registration step twice appends the
emitted pair sequence twice, so the final registry equals the single-run
registry followed by a second copy of the emitted pairs; the two runs
agree exactly when no field is eligible, i.e. the emitted sequence is
empty. The code has no guard against double registration. -/
theorem C6_amended_double_registration (m : ModelClass) (bl : List String)
    (hbl : m.blacklist? = some bl) :
    Except.bind (registerFieldPermissions m) registerFieldPermissions =
      Except.ok { m with permissions :=
        (m.permissions ++ (specRegisterSequence m.model_name bl m.fields
          ++ specRegisterSequence m.model_name bl m.fields)) } ∧
    (Except.bind (registerFieldPermissions m) registerFieldPermissions =
        registerFieldPermissions m ↔
      specRegisterSequence m.model_name bl m.fields = []) := by
  have h1 := registerFieldPermissions_some m bl hbl
  have h2 := registerFieldPermissions_some
      { m with permissions := m.permissions ++ specRegisterSequence m.model_name bl m.fields }
      bl hbl
  have hL : Except.bind (registerFieldPermissions m) registerFieldPermissions =
      Except.ok { m with permissions :=
        (m.permissions ++ (specRegisterSequence m.model_name bl m.fields
          ++ specRegisterSequence m.model_name bl m.fields)) } := by
    rw [h1]
    simp only [Except.bind]
    rw [h2]
    simp [List.append_assoc]
  refine ⟨hL, ?_⟩
  rw [hL, h1]
  constructor
  · intro h
    have hperm := congrArg ModelClass.permissions (Except.ok.inj h)
    simp only at hperm
    have hEE := List.append_cancel_left hperm
    have hlen := congrArg List.length hEE
    simp only [List.length_append] at hlen
    have : (specRegisterSequence m.model_name bl m.fields).length = 0 := by omega
    exact List.eq_nil_of_length_eq_zero this
  · intro hE
    rw [hE]
    simp

/-- Witness for C6 (amended) at the concrete document model. -/
theorem C6_witness :
    Except.bind (registerFieldPermissions documentModel) registerFieldPermissions =
      Except.ok { documentModel with permissions :=
        (documentModel.permissions ++
          (specRegisterSequence documentModel.model_name [] documentModel.fields ++
            specRegisterSequence documentModel.model_name [] documentModel.fields)) } :=
  (C6_amended_double_registration documentModel [] rfl).1

/-- Counterexample for C7: a descriptor with no exclusion-set
configuration and an empty field list registers successfully and silently
— the code fails to surface any error, because the blacklist attribute is
only read inside the per-field loop. -/
theorem C7_counterexample :
    orphanModel.blacklist? = none ∧
    registerFieldPermissions orphanModel = Except.ok orphanModel :=
  ⟨rfl, rfl⟩

/-- Claim C7 (amended): when the exclusion-set configuration is absent,
registration fails fast at declaration time — but with the attribute-
lookup error raised by reading the missing attribute, not a dedicated
configuration error, and only when the field list is nonempty; with an
empty field list it silently proceeds unchanged. -/
theorem C7_amended_missing_blacklist (m : ModelClass) (hbl : m.blacklist? = none) :
    (m.fields ≠ [] → registerFieldPermissions m =
      Except.error (PyError.attributeError "Permissions")) ∧
    (m.fields = [] → registerFieldPermissions m = Except.ok m) := by
  constructor
  · intro hne
    rcases hfs : m.fields with _ | ⟨f, fs⟩
    · exact absurd hfs hne
    · simp [registerFieldPermissions, hbl, hfs, permLoop, Except.map]
  · intro he
    obtain ⟨mn, al, flds, blk, perms⟩ := m
    simp only at he hbl
    subst he
    subst hbl
    rfl

/-- Witness for C7 (amended) at a concrete one-field model missing the
blacklist. -/
theorem C7_witness :
    registerFieldPermissions titleOnlyNoBlacklist =
      Except.error (PyError.attributeError "Permissions") :=
  (C7_amended_missing_blacklist titleOnlyNoBlacklist rfl).1 (by decide)

/-- Claim C8: concrete scenario — a document type with a primary-key id
field and a title field, and an actor holding only the grant
"app.change_document_title_field": change access to title is granted,
view access is denied, and the allowed fields for change are exactly the
singleton list with "title". -/
theorem C8_concrete_scenario :
    has_access_to_field documentModel "title" titleChangeActor "change" = true ∧
    has_access_to_field documentModel "title" titleChangeActor "view" = false ∧
    allowed_fields documentModel titleChangeActor "change" = Except.ok ["title"] := by
  refine ⟨by decide, by decide, by decide⟩

/-- Claim C9: registration only appends to the permission registry —
every preexisting entry is preserved in its original position and all
newly emitted pairs follow it — and no other attribute of the descriptor
(type name, scope, field list, exclusion set) is modified. -/
theorem C9_frame_append_only (m : ModelClass) (bl : List String) (m' : ModelClass)
    (hbl : m.blacklist? = some bl)
    (hreg : registerFieldPermissions m = Except.ok m') :
    m'.model_name = m.model_name ∧ m'.app_label = m.app_label ∧
    m'.fields = m.fields ∧ m'.blacklist? = m.blacklist? ∧
    ∃ appended, m'.permissions = m.permissions ++ appended := by
  have hr := registerFieldPermissions_some m bl hbl
  rw [hreg] at hr
  have hm' := Except.ok.inj hr
  subst hm'
  exact ⟨rfl, rfl, rfl, rfl, _, rfl⟩

/-- Witness for C9 at the concrete document model. -/
theorem C9_witness :
    ∃ appended,
      ({ documentModel with permissions :=
        (documentModel.permissions ++
          specRegisterSequence documentModel.model_name []
            documentModel.fields) }).permissions =
      documentModel.permissions ++ appended :=
  (C9_frame_append_only documentModel []
    { documentModel with permissions :=
        (documentModel.permissions ++
          specRegisterSequence documentModel.model_name [] documentModel.fields) }
    rfl (registerFieldPermissions_some documentModel [] rfl)).2.2.2.2

/-- Claim C10: the answer of `has_access_to_field` depends only on the
action, the type name, the app label, the field-name string and the
actor's grant predicate — the field list and exclusion set are never
consulted, so any two model states agreeing on name and label give the
same answer for every field-name string (including names of primary-key
fields, excluded fields, or names that are no field at all); in
particular it returns true for the primary-key field "id" and for the
excluded field "remarks" when the actor holds the derived grant, even
though `allowed_fields` never lists those fields. -/
theorem C10_access_ignores_field_metadata :
    (∀ (m₁ m₂ : ModelClass) (user : User) (field_name action : String),
        m₁.model_name = m₂.model_name → m₁.app_label = m₂.app_label →
        has_access_to_field m₁ field_name user action =
          has_access_to_field m₂ field_name user action) ∧
    (has_access_to_field documentModel "id" idChangeActor "change" = true ∧
      allowed_fields documentModel idChangeActor "change" = Except.ok []) ∧
    (has_access_to_field docExclModel "remarks" remarksChangeActor "change" = true ∧
      allowed_fields docExclModel remarksChangeActor "change" = Except.ok []) := by
  refine ⟨?_, ⟨by decide, by decide⟩, ⟨by decide, by decide⟩⟩
  intro m₁ m₂ user field_name action h1 h2
  simp [has_access_to_field, h1, h2]

/-- Witness for C10: two model states with the same name and label but
entirely different field lists and exclusion sets answer alike, even for
a name that is no field of either. -/
theorem C10_witness :
    has_access_to_field documentModel "ghost" titleChangeActor "change" =
      has_access_to_field emptyDocModel "ghost" titleChangeActor "change" :=
  C10_access_ignores_field_metadata.1 documentModel emptyDocModel titleChangeActor
    "ghost" "change" rfl rfl

end Ralph
